import Mathlib

/-!
Shallow embedding of the secure-med-chain core: the simplified `DrugInventory`
Solidity contract (deployer-based roles) and the CSV batch-import validator
`parseCSV` from `src/utils/csvParser.ts`.

Modelling conventions:
* `uint256` values become `Nat` (Solidity 0.8 checked arithmetic reverts on
  underflow; every subtraction below is guarded by a `require`, so `Nat`
  subtraction agrees with the source on all reachable inputs).
* `address` becomes `Nat`.
* The storage `mapping(uint256 => Drug)` together with its `exists` flag is
  modelled as an association list `List (Nat × Drug)`; a key is present in the
  list exactly when the mapping slot has `exists = true`.
* A reverting `require` becomes an `Except.error` carrying a constructor named
  after the revert message; EVM revert semantics (state rolled back) is the
  `Run` wrapper that returns the pre-call state on error.
* `block.timestamp` is passed explicitly as `now`.
-/

namespace DrugInventory

/-- The `Drug` struct of the contract (without the `exists` flag, which is
represented by presence in the association list). -/
structure Drug where
  id : Nat
  name : String
  quantity : Nat
  expiryDate : Nat
  addedBy : Nat
  addedAt : Nat
deriving DecidableEq

/-- The two events emitted by the contract: `DrugAdded` and `DrugDispensed`,
with exactly the fields of the Solidity `event` declarations. -/
inductive Event where
  | drugAdded (id : Nat) (name : String) (quantity : Nat) (expiryDate : Nat)
      (addedBy : Nat) (timestamp : Nat)
  | drugDispensed (drugId : Nat) (drugName : String) (quantity : Nat)
      (dispensedBy : Nat) (timestamp : Nat)
deriving DecidableEq

/-- One constructor per distinct revert in the simplified contract. -/
inductive ContractError where
  /-- require in `onlyAdmin`: "Only admin (deployer) can perform this action" -/
  | onlyAdminDeployer
  /-- require in `drugExists`: "Drug does not exist" -/
  | drugNotFound
  /-- require in `addDrug`: "Drug name cannot be empty" -/
  | emptyName
  /-- require in `addDrug`: "Quantity must be greater than 0" -/
  | nonPositiveQuantity
  /-- require in `addDrug`: "Expiry date must be in the future" -/
  | expiryNotInFuture
  /-- require in `dispenseDrug`: "Cannot dispense expired drugs" -/
  | expiredDrug
  /-- require in `dispenseDrug`: "Insufficient quantity" -/
  | insufficientQuantity
  /-- require in `dispenseDrug`: "Quantity must be greater than 0" -/
  | zeroDispenseQuantity
deriving DecidableEq

/-- The contract storage: `deployer`, `drugs`, `drugCount`, `drugIds`, plus the
stream of emitted events (the blockchain log). -/
structure ContractState where
  deployer : Nat
  drugs : List (Nat × Drug)
  drugCount : Nat
  drugIds : List Nat
  log : List Event
deriving DecidableEq

/-- Constructor: `deployer = msg.sender`, all storage empty. -/
def initialState (sender : Nat) : ContractState :=
  { deployer := sender, drugs := [], drugCount := 0, drugIds := [], log := [] }

/-- Reading a mapping slot: the entry with the given key, if present. -/
def lookupDrug : List (Nat × Drug) → Nat → Option Drug
  | [], _ => none
  | p :: t, id => if p.1 = id then some p.2 else lookupDrug t id

/-- The storage write `drugs[_drugId].quantity -= _quantity` as an update of
the association list (keys are untouched). -/
def subQuantity (table : List (Nat × Drug)) (id : Nat) (amount : Nat) :
    List (Nat × Drug) :=
  table.map fun p =>
    if p.1 = id then (p.1, { p.2 with quantity := p.2.quantity - amount }) else p

/-- The function `addDrug(_name, _quantity, _expiryDate)` with modifier `onlyAdmin`.
Checks mirror the source order: `onlyAdmin`, nonempty name, positive quantity,
future expiry; on success stores the record, pushes the id and emits
`DrugAdded`. -/
def addDrug (s : ContractState) (sender now : Nat) (name : String)
    (quantity expiryDate : Nat) : Except ContractError ContractState :=
  if sender = s.deployer then
    if name = "" then .error .emptyName
    else if 0 < quantity then
      if now < expiryDate then
        let newDrugId := s.drugCount + 1
        let drug : Drug :=
          { id := newDrugId, name := name, quantity := quantity,
            expiryDate := expiryDate, addedBy := sender, addedAt := now }
        .ok { s with
          drugCount := newDrugId,
          drugs := s.drugs ++ [(newDrugId, drug)],
          drugIds := s.drugIds ++ [newDrugId],
          log := s.log ++ [.drugAdded newDrugId name quantity expiryDate sender now] }
      else .error .expiryNotInFuture
    else .error .nonPositiveQuantity
  else .error .onlyAdminDeployer

/-- The function `dispenseDrug(_drugId, _quantity)`.  The modifier `onlyPharmacyOrAdmin` is
a no-op in the source ("permissive modifier that allows everyone"), so no role
check appears here.  Then `drugExists`, the expiry check, the stock check and
the positivity check, in source order; on success the quantity is decremented
and `DrugDispensed` is emitted. -/
def dispenseDrug (s : ContractState) (sender now : Nat) (drugId quantity : Nat) :
    Except ContractError ContractState :=
  match lookupDrug s.drugs drugId with
  | none => .error .drugNotFound
  | some drug =>
    if now < drug.expiryDate then
      if quantity ≤ drug.quantity then
        if 0 < quantity then
          .ok { s with
            drugs := subQuantity s.drugs drugId quantity,
            log := s.log ++ [.drugDispensed drugId drug.name quantity sender now] }
        else .error .zeroDispenseQuantity
      else .error .insufficientQuantity
    else .error .expiredDrug

/-- View function `getAllDrugIds()`. -/
def getAllDrugIds (s : ContractState) : List Nat := s.drugIds

/-- View function `getTotalDrugs()`. -/
def getTotalDrugs (s : ContractState) : Nat := s.drugCount

/-- View function `isAdmin(_address)`. -/
def isAdmin (s : ContractState) (a : Nat) : Bool := a == s.deployer

/-- View function `isPharmacyStaff(_address)`. -/
def isPharmacyStaff (s : ContractState) (a : Nat) : Bool := a != s.deployer

/-- EVM call semantics for `addDrug`: a revert rolls the state back, so the
result of a failing call is the unchanged pre-call state plus the error. -/
def addDrugRun (s : ContractState) (sender now : Nat) (name : String)
    (quantity expiryDate : Nat) : ContractState × Option ContractError :=
  match addDrug s sender now name quantity expiryDate with
  | .ok s2 => (s2, none)
  | .error e => (s, some e)

/-- EVM call semantics for `dispenseDrug` (revert = state unchanged). -/
def dispenseDrugRun (s : ContractState) (sender now : Nat)
    (drugId quantity : Nat) : ContractState × Option ContractError :=
  match dispenseDrug s sender now drugId quantity with
  | .ok s2 => (s2, none)
  | .error e => (s, some e)

/-- The spec groups the two dispense-side stock reverts ("Insufficient
quantity" and "Quantity must be greater than 0") under the single error kind
`InsufficientStock`. -/
def ContractError.isInsufficientStock : ContractError → Bool
  | .insufficientQuantity => true
  | .zeroDispenseQuantity => true
  | _ => false

/-- The spec error kind `Unauthorized` (role-mismatch reverts). -/
def ContractError.isUnauthorized : ContractError → Bool
  | .onlyAdminDeployer => true
  | _ => false

/-- States reachable from deployment by successful `addDrug` / `dispenseDrug`
calls (failed calls revert and do not change state). -/
inductive Reachable : ContractState → Prop where
  | init (sender : Nat) : Reachable (initialState sender)
  | addStep {s s2 : ContractState} (sender now : Nat) (name : String)
      (quantity expiryDate : Nat) : Reachable s →
      addDrug s sender now name quantity expiryDate = .ok s2 → Reachable s2
  | dispenseStep {s s2 : ContractState} (sender now drugId quantity : Nat) :
      Reachable s →
      dispenseDrug s sender now drugId quantity = .ok s2 → Reachable s2

/-- Modelled from the spec: the event-sourced projection of section 4.3 (the
repository has no replay function; the spec defines the log as the source of
truth whose replay must rebuild the drug table).  A `DrugAdded` entry creates
the record from the event fields; a `DrugDispensed` entry subtracts the
dispensed quantity. -/
def applyEvent (table : List (Nat × Drug)) : Event → List (Nat × Drug)
  | .drugAdded id name quantity expiryDate addedBy ts =>
      table ++ [(id, { id := id, name := name, quantity := quantity,
                       expiryDate := expiryDate, addedBy := addedBy, addedAt := ts })]
  | .drugDispensed drugId _ quantity _ _ => subQuantity table drugId quantity

/-- Modelled from the spec: replaying the full log from the empty table. -/
def replayTable (log : List Event) : List (Nat × Drug) :=
  log.foldl applyEvent []

/-- The id of a `DrugAdded` event, if the event is one. -/
def addedId : Event → Option Nat
  | .drugAdded id _ _ _ _ _ => some id
  | _ => none

/-- The initial quantity recorded by a `DrugAdded` event for a given id. -/
def addedQtyFor (id : Nat) : Event → Option Nat
  | .drugAdded i _ q _ _ _ => if i = id then some q else none
  | _ => none

/-- The quantity passed to the `addDrug` call that created drug `id` (read off
the log). -/
def originalQuantity (log : List Event) (id : Nat) : Option Nat :=
  log.findSome? (addedQtyFor id)

end DrugInventory

namespace DrugInventory

/-- A drug found in a table prefix is found in the extended table. -/
theorem lookupDrug_append_of_some {t : List (Nat × Drug)} {i : Nat} {d : Drug}
    (h : lookupDrug t i = some d) (t2 : List (Nat × Drug)) :
    lookupDrug (t ++ t2) i = some d := by
  induction t with
  | nil => simp [lookupDrug] at h
  | cons p t ih =>
    by_cases hpi : p.1 = i
    · simpa [lookupDrug, hpi] using h
    · rw [lookupDrug] at h
      rw [if_neg hpi] at h
      simpa [lookupDrug, hpi] using ih h

/-- Looking up after `subQuantity`: the same record, with the quantity
decremented exactly on the targeted id. -/
theorem lookupDrug_subQuantity (t : List (Nat × Drug)) (id q i : Nat) :
    lookupDrug (subQuantity t id q) i =
      (lookupDrug t i).map
        (fun d => if i = id then { d with quantity := d.quantity - q } else d) := by
  induction t with
  | nil => rfl
  | cons p t ih =>
    simp only [subQuantity, List.map_cons] at ih ⊢
    by_cases hid : p.1 = id
    · by_cases hpi : p.1 = i
      · have hiid : i = id := by rw [← hpi, hid]
        simp [lookupDrug, hid, hpi, hiid]
      · have hdi : ¬ id = i := fun h => hpi (by rw [hid, h])
        simpa [lookupDrug, hid, hpi, hdi] using ih
    · by_cases hpi : p.1 = i
      · have hiid : ¬ i = id := fun h => hid (hpi ▸ h)
        simp [lookupDrug, hid, hpi, hiid]
      · simpa [lookupDrug, hid, hpi] using ih

/-- Updating via `subQuantity` does not change the keys of the table. -/
theorem subQuantity_map_fst (t : List (Nat × Drug)) (id q : Nat) :
    (subQuantity t id q).map Prod.fst = t.map Prod.fst := by
  induction t with
  | nil => rfl
  | cons p t ih =>
    by_cases hid : p.1 = id <;> simp [subQuantity, hid] at ih ⊢ <;> exact ih

/-- Replay distributes over appending one event. -/
theorem replayTable_append_one (log : List Event) (e : Event) :
    replayTable (log ++ [e]) = applyEvent (replayTable log) e := by
  unfold replayTable
  rw [List.foldl_append]
  rfl

/-- An original quantity found in a log prefix survives appending entries. -/
theorem originalQuantity_append_some {log : List Event} {i q0 : Nat}
    (h : originalQuantity log i = some q0) (l2 : List Event) :
    originalQuantity (log ++ l2) i = some q0 := by
  unfold originalQuantity at h ⊢
  rw [List.findSome?_append, h]
  rfl

/-- If no `DrugAdded` entry carries the id, the log records no original
quantity for it. -/
theorem originalQuantity_none_of_not_mem {log : List Event} {i : Nat}
    (h : i ∉ log.filterMap addedId) : originalQuantity log i = none := by
  induction log with
  | nil => rfl
  | cons e l ih =>
    cases e with
    | drugAdded j nm q ex ab ts =>
      rw [List.filterMap_cons] at h
      simp only [addedId] at h
      rw [List.mem_cons] at h
      push_neg at h
      unfold originalQuantity at ih ⊢
      rw [List.findSome?_cons]
      have : addedQtyFor i (Event.drugAdded j nm q ex ab ts) = none := by
        simp [addedQtyFor]
        omega
      rw [this]
      exact ih h.2
    | drugDispensed j nm q ab ts =>
      rw [List.filterMap_cons] at h
      simp only [addedId] at h
      unfold originalQuantity at ih ⊢
      rw [List.findSome?_cons]
      have : addedQtyFor i (Event.drugDispensed j nm q ab ts) = none := rfl
      rw [this]
      exact ih h

/-- The master state invariant: ids are `1, …, drugCount` in order, the table
keys follow the id list, the log's `DrugAdded` ids follow the id list, the
replayed log is exactly the table, and every stored quantity is bounded by the
quantity of the `DrugAdded` entry that created the record. -/
structure Inv (s : ContractState) : Prop where
  ids_eq : s.drugIds = List.range' 1 s.drugCount
  keys_eq : s.drugs.map Prod.fst = s.drugIds
  log_ids : s.log.filterMap addedId = s.drugIds
  replay_eq : replayTable s.log = s.drugs
  qty_bound : ∀ p ∈ s.drugs,
    ∃ q0, originalQuantity s.log p.1 = some q0 ∧ p.2.quantity ≤ q0

/-- Every reachable state satisfies the master invariant. -/
theorem inv_of_reachable {s : ContractState} (h : Reachable s) : Inv s := by
  induction h with
  | init sender =>
    exact ⟨rfl, rfl, rfl, rfl, by intro p hp; simp [initialState] at hp⟩
  | addStep sender now name quantity expiryDate hr hok ih =>
    rename_i s s2
    unfold addDrug at hok
    split_ifs at hok with h1 h2 h3 h4
    injection hok with hok
    subst hok
    obtain ⟨ids_eq, keys_eq, log_ids, replay_eq, qty_bound⟩ := ih
    refine ⟨?_, ?_, ?_, ?_, ?_⟩
    · simp only [ids_eq, List.range'_concat, Nat.one_mul]
      rw [Nat.add_comm 1 s.drugCount]
    · simp [List.map_append, keys_eq]
    · simp [List.filterMap_append, addedId, log_ids]
    · rw [replayTable_append_one, replay_eq]
      rfl
    · intro p hp
      rw [List.mem_append] at hp
      rcases hp with hp | hp
      · obtain ⟨q0, hq0, hb⟩ := qty_bound p hp
        exact ⟨q0, originalQuantity_append_some hq0 _, hb⟩
      · rw [List.mem_singleton] at hp
        subst hp
        refine ⟨quantity, ?_, le_refl _⟩
        have hnone : originalQuantity s.log (s.drugCount + 1) = none := by
          apply originalQuantity_none_of_not_mem
          rw [log_ids, ids_eq, List.mem_range'_1]
          omega
        unfold originalQuantity at hnone ⊢
        rw [List.findSome?_append, hnone]
        simp [addedQtyFor]
  | dispenseStep sender now drugId quantity hr hok ih =>
    rename_i s s2
    cases hlk : lookupDrug s.drugs drugId with
    | none =>
      simp only [dispenseDrug, hlk] at hok
      exact Except.noConfusion hok
    | some drug =>
      simp only [dispenseDrug, hlk] at hok
      split_ifs at hok with h1 h2 h3
      injection hok with hok
      subst hok
      obtain ⟨ids_eq, keys_eq, log_ids, replay_eq, qty_bound⟩ := ih
      refine ⟨ids_eq, ?_, ?_, ?_, ?_⟩
      · rw [subQuantity_map_fst]
        exact keys_eq
      · simp [List.filterMap_append, addedId, log_ids]
      · rw [replayTable_append_one, replay_eq]
        rfl
      · intro p hp
        unfold subQuantity at hp
        rw [List.mem_map] at hp
        obtain ⟨p0, hp0, hmap⟩ := hp
        obtain ⟨q0, hq0, hb⟩ := qty_bound p0 hp0
        by_cases hid : p0.1 = drugId
        · rw [if_pos hid] at hmap
          subst hmap
          exact ⟨q0, originalQuantity_append_some hq0 _,
            le_trans (Nat.sub_le _ _) hb⟩
        · rw [if_neg hid] at hmap
          subst hmap
          exact ⟨q0, originalQuantity_append_some hq0 _, hb⟩

/-- Concrete reachable state: deployer `1` added "Paracetamol" (quantity 100,
expiry 1000) at time 10. -/
def statePostAdd : ContractState :=
  { deployer := 1,
    drugs := [(1, { id := 1, name := "Paracetamol", quantity := 100,
                    expiryDate := 1000, addedBy := 1, addedAt := 10 })],
    drugCount := 1, drugIds := [1],
    log := [.drugAdded 1 "Paracetamol" 100 1000 1 10] }

theorem statePostAdd_reachable : Reachable statePostAdd :=
  .addStep 1 10 "Paracetamol" 100 1000 (.init 1) rfl

/-- Concrete reachable state: staff `2` then dispensed 5 units at time 20. -/
def statePostDispense : ContractState :=
  { deployer := 1,
    drugs := [(1, { id := 1, name := "Paracetamol", quantity := 95,
                    expiryDate := 1000, addedBy := 1, addedAt := 10 })],
    drugCount := 1, drugIds := [1],
    log := [.drugAdded 1 "Paracetamol" 100 1000 1 10,
            .drugDispensed 1 "Paracetamol" 5 2 20] }

theorem statePostDispense_reachable : Reachable statePostDispense :=
  .dispenseStep 2 20 1 5 statePostAdd_reachable rfl

/-- A 256-character drug name. -/
def longName : String := ⟨List.replicate 256 'a'⟩

end DrugInventory

namespace DrugInventory

/-- Claim C1 (failing-input evaluation): the deployer identity `1` satisfies
`isAdmin`, the state `statePostAdd` is reached by its own `addDrug` call, and
the deployer's `dispenseDrug(1, 5)` call SUCCEEDS: the `onlyPharmacyOrAdmin`
modifier is a no-op, so no `Unauthorized` failure occurs, contradicting the
claim (and the repository's own documentation, which promises a revert with
"Admin cannot perform this action"). -/
theorem admin_dispense_succeeds :
    isAdmin statePostAdd 1 = true ∧
    addDrug (initialState 1) 1 10 "Paracetamol" 100 1000 = .ok statePostAdd ∧
    dispenseDrug statePostAdd 1 20 1 5 =
      .ok { deployer := 1,
            drugs := [(1, { id := 1, name := "Paracetamol", quantity := 95,
                            expiryDate := 1000, addedBy := 1, addedAt := 10 })],
            drugCount := 1, drugIds := [1],
            log := [.drugAdded 1 "Paracetamol" 100 1000 1 10,
                    .drugDispensed 1 "Paracetamol" 5 1 20] } :=
  ⟨rfl, rfl, rfl⟩

/-- Claim C2 (counterexample): `addDrug` performs no maximum-length check on
the name: an admin call with a 256-character name succeeds and creates a
record, so the "fails `InvalidInput` when name is longer than 255 characters"
half of the claim is false on the code. -/
theorem addDrug_accepts_256_char_name :
    255 < longName.length ∧
    addDrug (initialState 1) 1 10 longName 5 100 =
      .ok { deployer := 1,
            drugs := [(1, { id := 1, name := longName, quantity := 5,
                            expiryDate := 100, addedBy := 1, addedAt := 10 })],
            drugCount := 1, drugIds := [1],
            log := [.drugAdded 1 longName 5 100 1 10] } :=
  ⟨by have h : longName.length = 256 := by
        show (List.replicate 256 'a').length = 256
        rw [List.length_replicate]
      omega, rfl⟩

/-- Claim C2 (amended): for an admin caller, `addDrug` fails `InvalidInput`
on an empty name (leaving the state unchanged), and an admin call with any
nonempty name — of any length — positive quantity and future expiry succeeds;
there is no 255-character limit in `addDrug`. -/
theorem addDrug_name_validation (s : ContractState) (sender now : Nat)
    (name : String) (quantity expiryDate : Nat) (hadm : sender = s.deployer) :
    (name = "" →
      addDrugRun s sender now name quantity expiryDate = (s, some .emptyName)) ∧
    (name ≠ "" → 0 < quantity → now < expiryDate →
      ∃ s2, addDrug s sender now name quantity expiryDate = .ok s2) := by
  constructor
  · intro hname
    simp [addDrugRun, addDrug, hadm, hname]
  · intro hname hq hexp
    unfold addDrug
    rw [if_pos hadm, if_neg hname, if_pos hq, if_pos hexp]
    exact ⟨_, rfl⟩

/-- Witness for the amended C2 theorem at concrete inputs: the empty name is
rejected with the state unchanged, and the 256-character name is accepted. -/
theorem addDrug_name_validation_witness :
    addDrugRun (initialState 1) 1 0 "" 5 10 = (initialState 1, some .emptyName) ∧
    ∃ s2, addDrug (initialState 1) 1 0 longName 5 10 = .ok s2 :=
  ⟨(addDrug_name_validation (initialState 1) 1 0 "" 5 10 rfl).1 rfl,
   (addDrug_name_validation (initialState 1) 1 0 longName 5 10 rfl).2
     (by decide) (by decide) (by decide)⟩

/-- Claim C3: replaying the emitted audit log (`DrugAdded` / `DrugDispensed`
entries, in emission order) from the empty table reconstructs exactly the
current drugs table, in every reachable state; `replayTable` is a function of
the log alone, so the projection is deterministic. -/
theorem audit_replay_reconstructs_drugs {s : ContractState} (h : Reachable s) :
    replayTable s.log = s.drugs :=
  (inv_of_reachable h).replay_eq

/-- Witness for C3 at a concrete reachable state (one add, one dispense). -/
theorem audit_replay_reconstructs_drugs_witness :
    replayTable statePostDispense.log = statePostDispense.drugs :=
  audit_replay_reconstructs_drugs statePostDispense_reachable

/-- Claim C4: in every reachable state, every stored drug's quantity is
bounded by the quantity of the `DrugAdded` entry that created it (`Nat`
quantities make "never negative" hold by type, matching `uint256`), and each
successful operation leaves every pre-existing drug's quantity unchanged
(`addDrug`) or no larger (`dispenseDrug`). -/
theorem quantity_bounded_and_monotone {s : ContractState} (h : Reachable s) :
    (∀ p ∈ s.drugs,
      ∃ q0, originalQuantity s.log p.1 = some q0 ∧ p.2.quantity ≤ q0) ∧
    (∀ sender now drugId amount s2,
      dispenseDrug s sender now drugId amount = .ok s2 →
      ∀ i d d2, lookupDrug s.drugs i = some d → lookupDrug s2.drugs i = some d2 →
        d2.quantity ≤ d.quantity) ∧
    (∀ sender now name quantity expiryDate s2,
      addDrug s sender now name quantity expiryDate = .ok s2 →
      ∀ i d d2, lookupDrug s.drugs i = some d → lookupDrug s2.drugs i = some d2 →
        d2 = d) := by
  refine ⟨(inv_of_reachable h).qty_bound, ?_, ?_⟩
  · intro sender now drugId amount s2 hok i d d2 hd hd2
    cases hlk : lookupDrug s.drugs drugId with
    | none =>
      simp only [dispenseDrug, hlk] at hok
      exact Except.noConfusion hok
    | some drug =>
      simp only [dispenseDrug, hlk] at hok
      split_ifs at hok with h1 h2 h3
      injection hok with hok
      subst hok
      rw [lookupDrug_subQuantity, hd] at hd2
      have hd2x : (if i = drugId then { d with quantity := d.quantity - amount }
          else d) = d2 := by simpa using hd2
      by_cases hi : i = drugId
      · rw [if_pos hi] at hd2x
        rw [← hd2x]
        exact Nat.sub_le _ _
      · rw [if_neg hi] at hd2x
        rw [← hd2x]
  · intro sender now name quantity expiryDate s2 hok i d d2 hd hd2
    unfold addDrug at hok
    split_ifs at hok with h1 h2 h3 h4
    injection hok with hok
    subst hok
    rw [lookupDrug_append_of_some hd] at hd2
    exact (Option.some_injective _ hd2).symm

/-- Witness for C4: in the concrete reachable state after one dispense, the
stored quantity 95 is bounded by the creating entry's quantity 100. -/
theorem quantity_bounded_and_monotone_witness :
    ∃ q0, originalQuantity statePostDispense.log 1 = some q0 ∧ 95 ≤ q0 :=
  (quantity_bounded_and_monotone statePostDispense_reachable).1
    (1, { id := 1, name := "Paracetamol", quantity := 95,
          expiryDate := 1000, addedBy := 1, addedAt := 10 }) (by decide)

/-- Claim C5: if a stored drug's expiry date is at or before the call-time
clock, `dispenseDrug` fails `Expired` for every caller and every amount
(including amounts exceeding the stock: the expiry `require` precedes the
stock `require`), and the reverted call leaves the state unchanged. -/
theorem dispense_expired_always_fails (s : ContractState)
    (sender now drugId amount : Nat) (d : Drug)
    (hlk : lookupDrug s.drugs drugId = some d) (hexp : d.expiryDate ≤ now) :
    dispenseDrug s sender now drugId amount = .error .expiredDrug ∧
    dispenseDrugRun s sender now drugId amount = (s, some .expiredDrug) := by
  have hnl : ¬ now < d.expiryDate := by omega
  have h1 : dispenseDrug s sender now drugId amount = .error .expiredDrug := by
    simp [dispenseDrug, hlk, hnl]
  exact ⟨h1, by simp [dispenseDrugRun, h1]⟩

/-- Witness for C5: at clock 1000 the sample drug (expiry 1000) cannot be
dispensed, even for an amount (100000) far above the stock, and the state is
unchanged. -/
theorem dispense_expired_always_fails_witness :
    dispenseDrug statePostDispense 2 1000 1 100000 = .error .expiredDrug ∧
    dispenseDrugRun statePostDispense 2 1000 1 100000 =
      (statePostDispense, some .expiredDrug) :=
  dispense_expired_always_fails statePostDispense 2 1000 1 100000
    { id := 1, name := "Paracetamol", quantity := 95,
      expiryDate := 1000, addedBy := 1, addedAt := 10 } (by decide) (by decide)

/-- Claim C6: in every reachable state the ids of the successful `addDrug`
calls (read off the log, one `DrugAdded` entry per successful call, in call
order) are exactly `1, 2, …, drugCount`; `getAllDrugIds` returns that very
sequence in assignment order; `getTotalDrugs` is its length; and a failing
`addDrug` call leaves the id counter unchanged. -/
theorem ids_sequential_and_counted {s : ContractState} (h : Reachable s) :
    s.log.filterMap addedId = List.range' 1 s.drugCount ∧
    getAllDrugIds s = s.log.filterMap addedId ∧
    getTotalDrugs s = (s.log.filterMap addedId).length ∧
    (∀ sender now name quantity expiryDate,
      (addDrugRun s sender now name quantity expiryDate).2.isSome = true →
      (addDrugRun s sender now name quantity expiryDate).1.drugCount = s.drugCount) := by
  obtain ⟨ids_eq, keys_eq, log_ids, replay_eq, qty_bound⟩ := inv_of_reachable h
  refine ⟨by rw [log_ids, ids_eq], by rw [log_ids]; rfl,
    by rw [log_ids, ids_eq, List.length_range']; rfl, ?_⟩
  intro sender now name quantity expiryDate
  unfold addDrugRun
  cases haddr : addDrug s sender now name quantity expiryDate with
  | ok s2 => simp
  | error e => simp

/-- Witness for C6 at a concrete reachable state, including a failing
`addDrug` (staff caller) that leaves the counter unchanged. -/
theorem ids_sequential_and_counted_witness :
    statePostDispense.log.filterMap addedId =
      List.range' 1 statePostDispense.drugCount ∧
    (addDrugRun statePostDispense 2 30 "Aspirin" 10 5000).1.drugCount =
      statePostDispense.drugCount :=
  ⟨(ids_sequential_and_counted statePostDispense_reachable).1,
   (ids_sequential_and_counted statePostDispense_reachable).2.2.2
     2 30 "Aspirin" 10 5000 (by decide)⟩

/-- Claim C7: for a staff caller and an existing, unexpired drug, the dispense
call fails with a spec-`InsufficientStock` error exactly when the amount is
zero (`uint256` cannot be negative) or exceeds the current quantity, and
otherwise succeeds, storing exactly `d.quantity - amount` and appending one
`DrugDispensed` entry. -/
theorem dispense_stock_check (s : ContractState) (sender now drugId amount : Nat)
    (d : Drug) (_hstaff : isPharmacyStaff s sender = true)
    (hlk : lookupDrug s.drugs drugId = some d) (hexp : now < d.expiryDate) :
    ((∃ e, dispenseDrug s sender now drugId amount = .error e ∧
        e.isInsufficientStock = true) ↔ (amount = 0 ∨ d.quantity < amount)) ∧
    (0 < amount → amount ≤ d.quantity →
      ∃ s2, dispenseDrug s sender now drugId amount = .ok s2 ∧
        lookupDrug s2.drugs drugId =
          some { d with quantity := d.quantity - amount } ∧
        s2.log = s.log ++ [.drugDispensed drugId d.name amount sender now]) := by
  constructor
  · constructor
    · rintro ⟨e, he, hins⟩
      by_contra hno
      push_neg at hno
      obtain ⟨hne, hle⟩ := hno
      have h0 : 0 < amount := Nat.pos_of_ne_zero hne
      have hq : amount ≤ d.quantity := by omega
      simp [dispenseDrug, hlk, hexp, hq, h0] at he
    · intro hcond
      rcases hcond with h0 | hgt
      · subst h0
        refine ⟨.zeroDispenseQuantity, ?_, rfl⟩
        simp [dispenseDrug, hlk, hexp]
      · have hnq : ¬ amount ≤ d.quantity := by omega
        refine ⟨.insufficientQuantity, ?_, rfl⟩
        simp [dispenseDrug, hlk, hexp, hnq]
  · intro h0 hle
    have hok : dispenseDrug s sender now drugId amount =
        .ok { s with
          drugs := subQuantity s.drugs drugId amount,
          log := s.log ++ [.drugDispensed drugId d.name amount sender now] } := by
      simp [dispenseDrug, hlk, hexp, hle, h0]
    refine ⟨_, hok, ?_, rfl⟩
    rw [lookupDrug_subQuantity, hlk]
    simp

/-- Witness for C7 at concrete inputs: amount 1000 exceeds the stock of 95 and
fails with a spec-`InsufficientStock` error; amount 95 succeeds, stores 0 and
appends the dispense entry. -/
theorem dispense_stock_check_witness :
    (∃ e, dispenseDrug statePostDispense 2 20 1 1000 = .error e ∧
        e.isInsufficientStock = true) ∧
    (∃ s2, dispenseDrug statePostDispense 2 20 1 95 = .ok s2 ∧
        lookupDrug s2.drugs 1 =
          some { id := 1, name := "Paracetamol", quantity := 0,
                 expiryDate := 1000, addedBy := 1, addedAt := 10 } ∧
        s2.log = statePostDispense.log ++ [.drugDispensed 1 "Paracetamol" 95 2 20]) :=
  ⟨(dispense_stock_check statePostDispense 2 20 1 1000
      { id := 1, name := "Paracetamol", quantity := 95, expiryDate := 1000,
        addedBy := 1, addedAt := 10 } (by decide) (by decide) (by decide)).1.mpr
      (Or.inr (by decide)),
   (dispense_stock_check statePostDispense 2 20 1 95
      { id := 1, name := "Paracetamol", quantity := 95, expiryDate := 1000,
        addedBy := 1, addedAt := 10 } (by decide) (by decide) (by decide)).2
      (by decide) (by decide)⟩

/-- Claim C8: any `addDrug` or `dispenseDrug` call that fails (with any error
kind) leaves the entire ledger state — drugs table, id counter, id list and
log — exactly as before the call: the reverting call has no partial effects. -/
theorem failed_calls_leave_state_unchanged (s : ContractState)
    (sender now : Nat) (name : String) (quantity expiryDate drugId amount : Nat) :
    ((addDrugRun s sender now name quantity expiryDate).2.isSome = true →
      (addDrugRun s sender now name quantity expiryDate).1 = s) ∧
    ((dispenseDrugRun s sender now drugId amount).2.isSome = true →
      (dispenseDrugRun s sender now drugId amount).1 = s) := by
  constructor
  · unfold addDrugRun
    cases addDrug s sender now name quantity expiryDate with
    | ok s2 => simp
    | error e => simp
  · unfold dispenseDrugRun
    cases dispenseDrug s sender now drugId amount with
    | ok s2 => simp
    | error e => simp

/-- Witness for C8: a staff `addDrug` call (Unauthorized) and a dispense of a
nonexistent id (NotFound) both leave the initial state unchanged. -/
theorem failed_calls_leave_state_unchanged_witness :
    (addDrugRun (initialState 1) 2 0 "Aspirin" 10 100).1 = initialState 1 ∧
    (dispenseDrugRun (initialState 1) 2 0 1 5).1 = initialState 1 :=
  ⟨(failed_calls_leave_state_unchanged (initialState 1) 2 0 "Aspirin" 10 100 1 5).1
      (by decide),
   (failed_calls_leave_state_unchanged (initialState 1) 2 0 "Aspirin" 10 100 1 5).2
      (by decide)⟩

end DrugInventory

namespace CsvParser

/-!
Embedding of `parseCSV` from `src/utils/csvParser.ts`.

JavaScript string primitives are modelled at the character-list level so that
they compute in the kernel: `jsTrim` is `String.prototype.trim` (restricted to
the ASCII whitespace that occurs in this code's inputs), `jsSplit` is
`String.prototype.split` with a one-character separator, `jsParseInt` is
`parseInt(s, 10)`, and `dateMs` is the millisecond value of `new Date` applied
to a well-formed "YYYY-MM-DD" string (UTC midnight, proleptic Gregorian, via
the standard days-from-civil formula).  The wall clock `new Date()` is passed
in explicitly as `nowMs`.
-/

/-- JavaScript `s.trim()`: strip whitespace from both ends. -/
def jsTrim (s : String) : String :=
  ⟨((s.data.dropWhile Char.isWhitespace).reverse.dropWhile Char.isWhitespace).reverse⟩

/-- Helper for `jsSplit`: split a character list on a separator character. -/
def splitOnChar (sep : Char) : List Char → List (List Char)
  | [] => [[]]
  | c :: rest =>
    match splitOnChar sep rest with
    | [] => [[c]]
    | g :: gs => if c = sep then [] :: g :: gs else (c :: g) :: gs

/-- JavaScript `s.split(sep)` for a one-character separator. -/
def jsSplit (sep : Char) (s : String) : List String :=
  (splitOnChar sep s.data).map String.mk

/-- JavaScript `errors.join` with a semicolon-space separator. -/
def joinSemicolon : List String → String
  | [] => ""
  | e :: rest => rest.foldl (fun acc s2 => acc ++ "; " ++ s2) e

/-- Digit-string value (used on all-digit prefixes). -/
def digitsToNat (cs : List Char) : Nat :=
  cs.foldl (fun a c => 10 * a + (c.toNat - 48)) 0

/-- Longest digit prefix, `none` when there is no digit (`parseInt` NaN). -/
def leadingNat (cs : List Char) : Option Nat :=
  let ds := cs.takeWhile Char.isDigit
  if ds.isEmpty then none else some (digitsToNat ds)

/-- JavaScript `parseInt(s, 10)`: skip leading whitespace, optional sign, longest digit
prefix; `none` models NaN. -/
def jsParseInt (s : String) : Option Int :=
  match s.data.dropWhile Char.isWhitespace with
  | '-' :: rest => (leadingNat rest).map (fun n => -(n : Int))
  | '+' :: rest => (leadingNat rest).map (fun n => (n : Int))
  | cs => (leadingNat cs).map (fun n => (n : Int))

/-- The shape test of the regex `^\d{4}-\d{2}-\d{2}$`, returning the numeric
year, month and day on a match. -/
def parseYMD (s : String) : Option (Nat × Nat × Nat) :=
  match s.data with
  | [y1, y2, y3, y4, h1, m1, m2, h2, d1, d2] =>
    if ([y1, y2, y3, y4, m1, m2, d1, d2].all Char.isDigit) && h1 == '-' && h2 == '-' then
      some (digitsToNat [y1, y2, y3, y4], digitsToNat [m1, m2], digitsToNat [d1, d2])
    else none
  | _ => none

/-- Gregorian leap-year rule (as in ECMAScript date arithmetic). -/
def isLeapYear (y : Nat) : Bool :=
  (y % 4 == 0 && y % 100 != 0) || y % 400 == 0

/-- Days in a month (ECMAScript rejects out-of-range days in ISO strings). -/
def daysInMonth (y m : Nat) : Nat :=
  if m = 2 then (if isLeapYear y then 29 else 28)
  else if m = 4 ∨ m = 6 ∨ m = 9 ∨ m = 11 then 30
  else 31

/-- Calendar validity of a (year, month, day) triple. -/
def civilValid (y m d : Nat) : Bool :=
  1 ≤ m && m ≤ 12 && 1 ≤ d && d ≤ daysInMonth y m

/-- The function `isValidDate` from the source: the regex shape test followed by
`new Date(dateString)` producing a non-NaN time value. -/
def isValidDate (s : String) : Bool :=
  match parseYMD s with
  | some (y, m, d) => civilValid y m d
  | none => false

/-- Days from 1970-01-01 to the given civil date (standard era formula,
floor division throughout). -/
def daysFromCivil (y m d : Nat) : Int :=
  let yr : Int := if m ≤ 2 then (y : Int) - 1 else (y : Int)
  let era : Int := yr.fdiv 400
  let yoe : Int := yr - era * 400
  let mp : Int := (m : Int) + (if 2 < m then -3 else 9)
  let doy : Int := (153 * mp + 2).fdiv 5 + (d : Int) - 1
  let doe : Int := yoe * 365 + yoe.fdiv 4 - yoe.fdiv 100 + doy
  era * 146097 + doe - 719468

/-- Millisecond time value of `new Date("YYYY-MM-DD")` (UTC midnight). -/
def dateMs (y m d : Nat) : Int := 86400000 * daysFromCivil y m d

/-- The comparison `new Date(row.expiryDate) <= new Date()` (only reached on
format-valid dates). -/
def dateNotInFuture (s : String) (nowMs : Int) : Bool :=
  match parseYMD s with
  | some (y, m, d) => decide (dateMs y m d ≤ nowMs)
  | none => false

/-- The `DrugImportRow` interface; the optional `error` field is an `Option`. -/
structure DrugImportRow where
  name : String
  quantity : Int
  expiryDate : String
  rowNumber : Nat
  error : Option String
deriving DecidableEq

/-- The `ParseResult` interface. -/
structure ParseResult where
  valid : List DrugImportRow
  invalid : List DrugImportRow
  totalRows : Nat
deriving DecidableEq

/-- Field extraction of one data line: split on commas, trim each column,
destructure into name / quantity string / expiry date with `|| ''` and
`parseInt(...) || 0` defaults. -/
def parseRow (trimmedLine : String) (rowNumber : Nat) : DrugImportRow :=
  let cols := (jsSplit ',' trimmedLine).map jsTrim
  { name := cols.getD 0 "",
    quantity := (jsParseInt (cols.getD 1 "")).getD 0,
    expiryDate := cols.getD 2 "",
    rowNumber := rowNumber,
    error := none }

/-- The `errors` array built by the row validation, in source order. -/
def rowErrors (nowMs : Int) (row : DrugImportRow) : List String :=
  (if row.name = "" then ["Drug name is required"]
   else if 255 < row.name.length then ["Drug name must be 255 characters or less"]
   else []) ++
  (if row.quantity = 0 ∨ row.quantity ≤ 0 then ["Quantity must be a positive number"]
   else []) ++
  (if row.expiryDate = "" then ["Expiry date is required"]
   else if !isValidDate row.expiryDate then ["Expiry date must be in YYYY-MM-DD format"]
   else if dateNotInFuture row.expiryDate nowMs then ["Expiry date must be in the future"]
   else [])

/-- The body of the `dataLines.forEach((line, index) => ...)` callback: skip
lines that are blank after trimming, otherwise count the row and classify it
as valid or invalid. -/
def processDataLine (nowMs : Int) (acc : ParseResult) (il : Nat × String) :
    ParseResult :=
  let rowNumber := il.1 + 2
  let trimmedLine := jsTrim il.2
  if trimmedLine = "" then acc
  else
    let row := parseRow trimmedLine rowNumber
    let errs := rowErrors nowMs row
    if errs = [] then
      { acc with valid := acc.valid ++ [row], totalRows := acc.totalRows + 1 }
    else
      { acc with
        invalid := acc.invalid ++ [{ row with error := some (joinSemicolon errs) }],
        totalRows := acc.totalRows + 1 }

/-- The function `parseCSV(csvContent)`: trim the content, split into lines, drop the first
line as the header, and fold the row classifier over the remaining lines with
their indices. -/
def parseCSV (csvContent : String) (nowMs : Int) : ParseResult :=
  let lines := jsSplit '\n' (jsTrim csvContent)
  let dataLines := lines.drop 1
  dataLines.enum.foldl (processDataLine nowMs) { valid := [], invalid := [], totalRows := 0 }

/-- A date before 2099 makes the future-check on "2099-01-01" pass. -/
theorem dateNotInFuture_20990101 (now : Int) (h : now < dateMs 2099 1 1) :
    dateNotInFuture "2099-01-01" now = false := by
  have e : dateNotInFuture "2099-01-01" now = decide (dateMs 2099 1 1 ≤ now) := rfl
  rw [e]
  exact decide_eq_false (not_le.mpr h)

/-- One classification step preserves `|valid| + |invalid| = totalRows`. -/
theorem processDataLine_counts (now : Int) (acc : ParseResult) (p : Nat × String)
    (h : acc.valid.length + acc.invalid.length = acc.totalRows) :
    (processDataLine now acc p).valid.length +
      (processDataLine now acc p).invalid.length =
      (processDataLine now acc p).totalRows := by
  by_cases h1 : jsTrim p.2 = ""
  · simp [processDataLine, h1, h]
  · by_cases h2 : rowErrors now (parseRow (jsTrim p.2) (p.1 + 2)) = []
    · simp [processDataLine, h1, h2, List.length_append]
      omega
    · simp [processDataLine, h1, h2, List.length_append]
      omega

/-- The classification fold preserves `|valid| + |invalid| = totalRows`. -/
theorem foldl_processDataLine_counts (now : Int) (L : List (Nat × String)) :
    ∀ acc : ParseResult, acc.valid.length + acc.invalid.length = acc.totalRows →
      (L.foldl (processDataLine now) acc).valid.length +
        (L.foldl (processDataLine now) acc).invalid.length =
        (L.foldl (processDataLine now) acc).totalRows := by
  induction L with
  | nil => intro acc h; exact h
  | cons p L ih =>
    intro acc h
    rw [List.foldl_cons]
    exact ih _ (processDataLine_counts now acc p h)

end CsvParser

namespace CsvParser

/-- Claim C9: the batch validator, given the three data rows
`("A",10,"2099-01-01")`, `("",5,"2099-01-01")`, `("B",-1,"2099-01-01")` in the
documented CSV layout (header line followed by the data rows), classifies
exactly one row as well-formed (the "A" row) and exactly two as malformed,
with distinct reasons — the missing name for row 3 and the non-positive
quantity for row 4 — each tagged with its original row number; the malformed
rows do not prevent classification of the others.  Stated for every call-time
clock before 2099-01-01. -/
theorem parseCSV_scenario (now : Int) (h : now < dateMs 2099 1 1) :
    parseCSV "name,quantity,expiryDate\nA,10,2099-01-01\n,5,2099-01-01\nB,-1,2099-01-01" now =
    ⟨[⟨"A", 10, "2099-01-01", 2, none⟩],
     [⟨"", 5, "2099-01-01", 3, some "Drug name is required"⟩,
      ⟨"B", -1, "2099-01-01", 4, some "Quantity must be a positive number"⟩],
     3⟩ := by
  have hfalse := dateNotInFuture_20990101 now h
  have rA : rowErrors now ⟨"A", 10, "2099-01-01", 2, none⟩ = [] := by
    have e : rowErrors now ⟨"A", 10, "2099-01-01", 2, none⟩ =
        (if dateNotInFuture "2099-01-01" now then ["Expiry date must be in the future"]
         else []) := rfl
    rw [e, hfalse]
    rfl
  have rB : rowErrors now ⟨"", 5, "2099-01-01", 3, none⟩ = ["Drug name is required"] := by
    have e : rowErrors now ⟨"", 5, "2099-01-01", 3, none⟩ =
        "Drug name is required" ::
          (if dateNotInFuture "2099-01-01" now then ["Expiry date must be in the future"]
           else []) := rfl
    rw [e, hfalse]
    rfl
  have rC : rowErrors now ⟨"B", -1, "2099-01-01", 4, none⟩ =
      ["Quantity must be a positive number"] := by
    have e : rowErrors now ⟨"B", -1, "2099-01-01", 4, none⟩ =
        "Quantity must be a positive number" ::
          (if dateNotInFuture "2099-01-01" now then ["Expiry date must be in the future"]
           else []) := rfl
    rw [e, hfalse]
    rfl
  have t1 : jsTrim "A,10,2099-01-01" = "A,10,2099-01-01" := rfl
  have t2 : jsTrim ",5,2099-01-01" = ",5,2099-01-01" := rfl
  have t3 : jsTrim "B,-1,2099-01-01" = "B,-1,2099-01-01" := rfl
  have p1 : parseRow "A,10,2099-01-01" 2 = ⟨"A", 10, "2099-01-01", 2, none⟩ := rfl
  have p2 : parseRow ",5,2099-01-01" 3 = ⟨"", 5, "2099-01-01", 3, none⟩ := rfl
  have p3 : parseRow "B,-1,2099-01-01" 4 = ⟨"B", -1, "2099-01-01", 4, none⟩ := rfl
  show List.foldl (processDataLine now) ⟨[], [], 0⟩
      [(0, "A,10,2099-01-01"), (1, ",5,2099-01-01"), (2, "B,-1,2099-01-01")] = _
  rw [List.foldl_cons, List.foldl_cons, List.foldl_cons, List.foldl_nil]
  simp only [processDataLine, t1, t2, t3]
  norm_num
  simp only [p1, p2, p3, rA, rB, rC]
  simp [joinSemicolon]

/-- Witness for C9 at the concrete clock 2026-10-12 (1760227200000 ms). -/
theorem parseCSV_scenario_witness :
    parseCSV "name,quantity,expiryDate\nA,10,2099-01-01\n,5,2099-01-01\nB,-1,2099-01-01"
        1760227200000 =
    ⟨[⟨"A", 10, "2099-01-01", 2, none⟩],
     [⟨"", 5, "2099-01-01", 3, some "Drug name is required"⟩,
      ⟨"B", -1, "2099-01-01", 4, some "Quantity must be a positive number"⟩],
     3⟩ :=
  parseCSV_scenario 1760227200000 (by decide)

/-- Claim C10: `parseCSV` discards the first line of the trimmed input as a
presumed header — any two inputs agreeing after their first trimmed line
classify identically, a well-formed data row on the first line of a two-line
input is not classified (only the second line is), and on a one-line input
nothing is classified at all; lines that are blank after trimming are
silently skipped; and every result satisfies
`valid.length + invalid.length = totalRows`. -/
theorem parseCSV_header_skip_and_counts :
    (∀ s1 s2 : String, ∀ now : Int,
      (jsSplit '\n' (jsTrim s1)).drop 1 = (jsSplit '\n' (jsTrim s2)).drop 1 →
      parseCSV s1 now = parseCSV s2 now) ∧
    parseCSV "A,10,2099-01-01\nB,20,2099-01-01" 0 =
      ⟨[⟨"B", 20, "2099-01-01", 2, none⟩], [], 1⟩ ∧
    parseCSV "A,10,2099-01-01" 0 = ⟨[], [], 0⟩ ∧
    (∀ now : Int, ∀ acc : ParseResult, ∀ i : Nat, ∀ line : String,
      jsTrim line = "" → processDataLine now acc (i, line) = acc) ∧
    (∀ s : String, ∀ now : Int,
      (parseCSV s now).valid.length + (parseCSV s now).invalid.length =
        (parseCSV s now).totalRows) := by
  refine ⟨?_, by decide, by decide, ?_, ?_⟩
  · intro s1 s2 now hs
    simp only [parseCSV]
    rw [hs]
  · intro now acc i line hline
    unfold processDataLine
    simp [hline]
  · intro s now
    exact foldl_processDataLine_counts now _ _ rfl

/-- Witness for C10 at concrete inputs: two different header lines over the
same data classify identically, and a whitespace-only line is skipped. -/
theorem parseCSV_header_skip_and_counts_witness :
    parseCSV "name,quantity,expiryDate\nB,20,2099-01-01" 0 =
      parseCSV "some other header\nB,20,2099-01-01" 0 ∧
    processDataLine 0 ⟨[], [], 0⟩ (7, "   ") = ⟨[], [], 0⟩ :=
  ⟨parseCSV_header_skip_and_counts.1 "name,quantity,expiryDate\nB,20,2099-01-01"
      "some other header\nB,20,2099-01-01" 0 (by decide),
   parseCSV_header_skip_and_counts.2.2.2.1 0 ⟨[], [], 0⟩ 7 "   " (by decide)⟩

end CsvParser
